import Mathlib

/-!
SimpleVector (simple_vector.h): a shallow embedding and its properties

The C++ class template `SimpleVector<Type>` is embedded as a record of its three
data members: the owned buffer `items_` (the list of its slots), `size_` and
`capacity_`.  Every member function becomes a function on that record; each
branch and each loop of the source is kept.

Conventions of the embedding

* `size_t` values are natural numbers.  A live buffer holds at most as many
  elements as the allocator can hand out, far below `2^63`, so `size_ + 1` and
  `capacity_ * 2` never wrap and are plain additions / multiplications.  The one
  subtraction that can wrap, `--size_` in `Erase`, is embedded with its wrap
  (`decr`).
* Allocation always succeeds.
* A position (an iterator `begin() + p`) is the offset `p`.
* The standard algorithms (`std::fill`, `std::copy`, `std::copy_backward`,
  `std::move`, `std::move_backward`) are embedded as the element-by-element
  loops they perform, in their iteration order.  An access outside a buffer is
  undefined in C++; in the loops a write outside the buffer is dropped and a
  read outside the buffer ends the loop.  No theorem below relies on this
  totalisation: the hypotheses exclude it or the evaluated inputs never reach it.
  Where an operation itself steps outside what C++ defines (an algorithm called
  on a range whose end precedes its start, a read through a reference into a
  released buffer) its result is a `Failure`.
* An argument of reference type is an `Arg`: a reference to an object outside the
  vector, or to a slot of the vector's own buffer.  It is read at the point where
  the source reads it.
* Moving from an element leaves the source element in its moved-from state,
  given by `Movable.movedFrom` (the identity for scalar types).
* `assert` is active in a debug build and compiled out under `NDEBUG`; the
  functions that assert take the flag `dbg` (`true`: assertions active).
* Where the source compares addresses (`this != &rhs`, `&lhs == &rhs`), the
  objects live in a `Store` and are named by their identity.
* The element comparisons `==` and `<` of the comparison operators are decidable
  equality and the order of the element type.
-/

/-- The moved-from state of an element: what `x = std::move(y)` leaves in `y`. -/
class Movable (α : Type) where
  movedFrom : α → α

instance instMovableNat : Movable Nat := ⟨id⟩

instance instMovableInt : Movable Int := ⟨id⟩

/-- The moved-from state of a string is the empty string. -/
instance instMovableString : Movable String := ⟨fun _ => ""⟩

/-- Modelled from the spec: the Owned Buffer `ArrayPtr<Type>` of `array_ptr.h`, a header
that is not part of the sources at hand.  The spec describes it as a fixed-length,
exclusively owned block of elements with access by offset; it is the list of its slots,
and the null buffer is the empty list. -/
abbrev ArrayPtr (α : Type) := List α

/-- Modelled from the spec: `ArrayPtr<Type>(n)` (and `new Type[n]`), "allocate(N) returns a
buffer of N default-constructed elements (or an empty/null buffer if N=0)". -/
def ArrayPtr.alloc {α : Type} [Inhabited α] (n : Nat) : ArrayPtr α :=
  List.replicate n default

/-- Modelled from the spec: move assignment of an `ArrayPtr`, "ownership transferable via
move or swap only, never duplicated".  Returns the new target and the new source: the
target takes the storage, the source is left null. -/
def ArrayPtr.moveFrom {α : Type} (src : ArrayPtr α) : ArrayPtr α × ArrayPtr α :=
  (src, [])

/-- How an operation can fail: an `assert` that does not hold (debug build), a thrown
`std::out_of_range`, a read of storage that is not there (a slot the buffer does not have,
or a buffer that has been released), or a step whose behaviour C++ leaves undefined (a
standard algorithm on a range whose end precedes its start, a write outside a buffer). -/
inductive Failure where
  | assertFailed : Failure
  | outOfRange : Failure
  | badRead : Failure
  | undefined : Failure
deriving DecidableEq, Repr

/-- An argument passed by reference (`const Type&`, `Type&&`).  It refers either to an
object outside the buffer of the vector, given by its value, or to the slot `k` of the
buffer that the vector owns when the call is made (as in `v.PushBack(v[k])`). -/
inductive Arg (α : Type) where
  | outside : α → Arg α
  | slot : Nat → Arg α
deriving DecidableEq, Repr

/-- Reading through the reference while the buffer it may refer to is alive and holds
`buf`. -/
def Arg.read {α : Type} (a : Arg α) (buf : List α) : Except Failure α :=
  match a with
  | .outside x => .ok x
  | .slot k =>
    match buf[k]? with
    | some x => .ok x
    | none => .error .badRead

/-- Reading through the reference after the buffer that the vector owned at the call has
been released: a reference into that buffer dangles. -/
def Arg.readReleased {α : Type} (a : Arg α) : Except Failure α :=
  match a with
  | .outside x => .ok x
  | .slot _ => .error .badRead

/-- The value of `SIZE_MAX` (64-bit `size_t`). -/
def SIZE_MAX : Nat := 2 ^ 64 - 1

/-- The decrement `--n` of a `size_t`: it wraps at zero. -/
def decr (n : Nat) : Nat :=
  if n = 0 then SIZE_MAX else n - 1

/-- The loop of `std::fill(first, first + n, x)` and of `Fill`:
`for (; first != last; ++first) *first = x;`. -/
def fillLoop {α : Type} : Nat → Nat → α → List α → List α
  | 0, _, _, buf => buf
  | n + 1, first, x, buf => fillLoop n (first + 1) x (buf.set first x)

/-- The loop of `std::copy(src + first, src + first + n, dst + d)` between two distinct
buffers: `while (first != last) *d++ = *first++;`. Returns the destination buffer. -/
def copyLoop {α : Type} : Nat → List α → Nat → List α → Nat → List α
  | 0, _, _, dst, _ => dst
  | n + 1, src, first, dst, d =>
    match src[first]? with
    | none => dst
    | some x => copyLoop n src (first + 1) (dst.set d x) (d + 1)

/-- The loop of `std::copy_backward(src + last - n, src + last, dst + dlast)` between two
distinct buffers: `while (first != last) *(--dlast) = *(--last);`. -/
def copyBackwardLoop {α : Type} : Nat → List α → Nat → List α → Nat → List α
  | 0, _, _, dst, _ => dst
  | n + 1, src, last, dst, dlast =>
    match src[last - 1]? with
    | none => dst
    | some x => copyBackwardLoop n src (last - 1) (dst.set (dlast - 1) x) (dlast - 1)

/-- The loop of `std::copy_backward(buf + last - n, buf + last, buf + dlast)` inside one
buffer. -/
def copyBackwardWithin {α : Type} : Nat → Nat → Nat → List α → List α
  | 0, _, _, buf => buf
  | n + 1, last, dlast, buf =>
    match buf[last - 1]? with
    | none => buf
    | some x => copyBackwardWithin n (last - 1) (dlast - 1) (buf.set (dlast - 1) x)

/-- The loop of `std::move(src + first, src + first + n, dst + d)` between two distinct
buffers: `while (first != last) *d++ = std::move(*first++);`.  Returns the source buffer
(its moved slots in the moved-from state) and the destination buffer. -/
def moveLoop {α : Type} [Movable α] : Nat → List α → Nat → List α → Nat → List α × List α
  | 0, src, _, dst, _ => (src, dst)
  | n + 1, src, first, dst, d =>
    match src[first]? with
    | none => (src, dst)
    | some x => moveLoop n (src.set first (Movable.movedFrom x)) (first + 1) (dst.set d x) (d + 1)

/-- The loop of `std::move_backward(src + last - n, src + last, dst + dlast)` between two
distinct buffers: `while (first != last) *(--dlast) = std::move(*(--last));`. -/
def moveBackwardLoop {α : Type} [Movable α] :
    Nat → List α → Nat → List α → Nat → List α × List α
  | 0, src, _, dst, _ => (src, dst)
  | n + 1, src, last, dst, dlast =>
    match src[last - 1]? with
    | none => (src, dst)
    | some x =>
      moveBackwardLoop n (src.set (last - 1) (Movable.movedFrom x)) (last - 1)
        (dst.set (dlast - 1) x) (dlast - 1)

/-- The loop of `std::move(buf + first, buf + first + n, buf + d)` inside one buffer: each
step assigns the slot `d` from the slot `first`, which is left moved-from. -/
def moveWithin {α : Type} [Movable α] : Nat → Nat → Nat → List α → List α
  | 0, _, _, buf => buf
  | n + 1, first, d, buf =>
    match buf[first]? with
    | none => buf
    | some x => moveWithin n (first + 1) (d + 1) ((buf.set d x).set first (Movable.movedFrom x))

/-- The loop of `std::move_backward(buf + last - n, buf + last, buf + dlast)` inside one
buffer. -/
def moveBackwardWithin {α : Type} [Movable α] : Nat → Nat → Nat → List α → List α
  | 0, _, _, buf => buf
  | n + 1, last, dlast, buf =>
    match buf[last - 1]? with
    | none => buf
    | some x =>
      moveBackwardWithin n (last - 1) (dlast - 1)
        ((buf.set (dlast - 1) x).set (last - 1) (Movable.movedFrom x))

/-- What `dst = std::move(arg)` leaves of the buffer `buf` that the argument may refer to,
`x` being the value read through it: the slot referred to is left moved-from.  An object
outside the buffer is not part of the state. -/
def Arg.movedOut {α : Type} [Movable α] (a : Arg α) (x : α) (buf : List α) : List α :=
  match a with
  | .outside _ => buf
  | .slot k => buf.set k (Movable.movedFrom x)

/-- The data members of `SimpleVector<Type>`, with their default member initialisers:
`ArrayPtr<Type> items_; size_t size_ = 0; size_t capacity_ = 0;`. -/
structure SimpleVector (α : Type) where
  items_ : ArrayPtr α := []
  size_ : Nat := 0
  capacity_ : Nat := 0
deriving DecidableEq, Repr

namespace SimpleVector

variable {α : Type}

/-- Source: `GetSize()`. -/
def GetSize (v : SimpleVector α) : Nat := v.size_

/-- Source: `GetCapacity()`. -/
def GetCapacity (v : SimpleVector α) : Nat := v.capacity_

/-- Source: `IsEmpty()`. -/
def IsEmpty (v : SimpleVector α) : Bool := v.size_ == 0

/-- The logical contents: the elements of the range `[begin(), end())`, that is the first
`size_` slots of the buffer. -/
def toList (v : SimpleVector α) : List α := v.items_.take v.size_

/-- Source: `SimpleVector() noexcept = default;`. -/
def empty : SimpleVector α := {}

/-- Source: `SimpleVector(size_t size, const Type& value)`: the buffer is allocated with `size`
slots, which `std::fill` then sets to `value`. -/
def sized [Inhabited α] (size : Nat) (value : α) : SimpleVector α :=
  { items_ := fillLoop size 0 value (ArrayPtr.alloc size), size_ := size, capacity_ := size }

/-- Source: `explicit SimpleVector(size_t size) : SimpleVector(size, Type())`. -/
def sizedDefault [Inhabited α] (size : Nat) : SimpleVector α :=
  sized size default

/-- Source: `SimpleVector(std::initializer_list<Type> init)`. -/
def fromInit [Inhabited α] (init : List α) : SimpleVector α :=
  { items_ := copyLoop init.length init 0 (ArrayPtr.alloc init.length) 0,
    size_ := init.length, capacity_ := init.length }

/-- Source: `SimpleVector(const SimpleVector& other) : items_(new Type[other.size_]),
size_(other.size_)`, with body `std::copy(other.begin(), other.end(), items_.Get())`.
The member initialiser list names `items_` and `size_` only, so `capacity_` keeps its
default member initialiser `0`. -/
def copy [Inhabited α] (other : SimpleVector α) : SimpleVector α :=
  { items_ := copyLoop other.size_ other.items_ 0 (ArrayPtr.alloc other.size_) 0,
    size_ := other.size_ }

/-- Source: `SimpleVector(SimpleVector&& other)`: returns the constructed vector and the state in
which `other` is left. -/
def moveCtor (other : SimpleVector α) : SimpleVector α × SimpleVector α :=
  let mv := ArrayPtr.moveFrom other.items_
  ({ items_ := mv.1, size_ := other.size_, capacity_ := other.capacity_ },
   { items_ := mv.2, size_ := 0, capacity_ := 0 })

/-- Source: `void Fill(Iterator first, Iterator last)`: the slots `[first, last)` are assigned
`Type()`.  Its `assert(first <= last)` holds at both call sites in `Resize`. -/
def Fill [Inhabited α] (buf : ArrayPtr α) (first last : Nat) : ArrayPtr α :=
  fillLoop (last - first) first default buf

/-- Source: `void Resize(size_t new_size)`: three consecutive `if` statements, none of them an
`else` of another. -/
def Resize [Inhabited α] [Movable α] (v : SimpleVector α) (new_size : Nat) : SimpleVector α :=
  let v1 := if new_size ≤ v.size_ then { v with size_ := new_size } else v
  let v2 :=
    if new_size ≤ v1.capacity_ then
      { v1 with items_ := Fill v1.items_ v1.size_ new_size }
    else v1
  if new_size > v2.capacity_ then
    let new_capacity := max new_size (v2.capacity_ * 2)
    let temp := Fill (ArrayPtr.alloc new_capacity) 0 new_capacity
    let moved := moveLoop v2.capacity_ v2.items_ 0 temp 0
    { items_ := moved.2, size_ := new_size, capacity_ := new_capacity }
  else v2

/-- Source: `void Clear() noexcept { Resize(0); }`. -/
def Clear [Inhabited α] [Movable α] (v : SimpleVector α) : SimpleVector α :=
  v.Resize 0

/-- Source: `void Reserve(size_t new_capacity)`. -/
def Reserve [Inhabited α] (v : SimpleVector α) (new_capacity : Nat) : SimpleVector α :=
  if new_capacity > v.capacity_ then
    let temp := copyLoop v.size_ v.items_ 0 (ArrayPtr.alloc new_capacity) 0
    { v with items_ := temp, capacity_ := new_capacity }
  else v

/-- Source: `SimpleVector(ReserveProxyObj obj) { Reserve(obj.GetNewCapacity()); }`. -/
def reserved [Inhabited α] (capacity_to_reserve : Nat) : SimpleVector α :=
  (empty : SimpleVector α).Reserve capacity_to_reserve

/-- Source: `void PushBack(const Type& item)`.  The growth block ends by swapping the new
buffer in and releasing the old one; `item` is read after it, in `items_[size_] = item`. -/
def PushBack [Inhabited α] (v : SimpleVector α) (item : Arg α) :
    Except Failure (SimpleVector α) :=
  let v1 :=
    if v.size_ + 1 > v.capacity_ then
      let new_capacity := max (v.size_ + 1) (v.capacity_ * 2)
      let temp := copyLoop v.size_ v.items_ 0 (ArrayPtr.alloc new_capacity) 0
      { v with items_ := temp, capacity_ := new_capacity }
    else v
  let read := if v.size_ + 1 > v.capacity_ then item.readReleased else item.read v1.items_
  read.map fun x => { v1 with items_ := v1.items_.set v1.size_ x, size_ := v1.size_ + 1 }

/-- Source: `void PushBack(Type&& item)`: the old elements are moved into the new buffer and the
old buffer is released; `item` is read after it, in `items_[size_] = std::move(item)`, which
leaves the object referred to moved-from. -/
def PushBackMove [Inhabited α] [Movable α] (v : SimpleVector α) (item : Arg α) :
    Except Failure (SimpleVector α) :=
  let v1 :=
    if v.size_ + 1 > v.capacity_ then
      let new_capacity := max (v.size_ + 1) (v.capacity_ * 2)
      let moved := moveLoop v.size_ v.items_ 0 (ArrayPtr.alloc new_capacity) 0
      { v with items_ := moved.2, capacity_ := new_capacity }
    else v
  let read := if v.size_ + 1 > v.capacity_ then item.readReleased else item.read v1.items_
  read.map fun x =>
    let items := v1.items_.set v1.size_ x
    { v1 with
      items_ := if v.size_ + 1 > v.capacity_ then items else item.movedOut x items,
      size_ := v1.size_ + 1 }

/-- Source: `Iterator insert(ConstIterator pos, const Type& value)` with `count = pos - begin()`.
Returns the new state and the offset of the returned iterator `&items_[count]`.  Past the
assertion (under `NDEBUG`) a `count` above `size_` is undefined in every branch: the write
`temp[count]` misses the one-slot buffer, or `std::copy_backward` gets the range
`[count, size_)` whose end precedes its start.  `value` is read where the source assigns
from it: before the swap in the two allocating branches, after the shift in the branch with
a free slot. -/
def insert [Inhabited α] (dbg : Bool) (v : SimpleVector α) (count : Nat) (value : Arg α) :
    Except Failure (SimpleVector α × Nat) :=
  if dbg && !(decide (count ≤ v.size_)) then .error .assertFailed
  else if count > v.size_ then .error .undefined
  else
    let r : Except Failure (SimpleVector α) :=
      if v.capacity_ = 0 then
        if count ≥ 1 then .error .undefined
        else
          (value.read v.items_).map fun x =>
            { v with items_ := (ArrayPtr.alloc 1 : ArrayPtr α).set count x,
                     capacity_ := v.capacity_ + 1 }
      else if v.size_ < v.capacity_ then
        let shifted := copyBackwardWithin (v.size_ - count) v.size_ (v.size_ + 1) v.items_
        (value.read shifted).map fun x => { v with items_ := shifted.set count x }
      else
        let new_capacity := max (v.size_ + 1) (v.capacity_ * 2)
        let temp := copyLoop v.size_ v.items_ 0 (ArrayPtr.alloc new_capacity) 0
        let temp := copyBackwardLoop (v.size_ - count) v.items_ v.size_ temp (v.size_ + 1)
        (value.read v.items_).map fun x =>
          { v with items_ := temp.set count x, capacity_ := new_capacity }
    r.map fun v1 => ({ v1 with size_ := v1.size_ + 1 }, count)

/-- Source: `Iterator Insert(ConstIterator pos, Type&& value)` with `count = pos - begin()`.
As for `insert`, a `count` above `size_` past the assertion is undefined.  `value` is read
where the source moves from it: from the old buffer before the swap in the two allocating
branches (in the full branch after both `std::move` and `std::move_backward` have gone over
that buffer), from the shifted buffer in the branch with a free slot, where the slot
referred to is then left moved-from. -/
def Insert [Inhabited α] [Movable α] (dbg : Bool) (v : SimpleVector α) (count : Nat)
    (value : Arg α) : Except Failure (SimpleVector α × Nat) :=
  if dbg && !(decide (count ≤ v.size_)) then .error .assertFailed
  else if count > v.size_ then .error .undefined
  else
    let r : Except Failure (SimpleVector α) :=
      if v.capacity_ = 0 then
        if count ≥ 1 then .error .undefined
        else
          (value.read v.items_).map fun x =>
            { v with items_ := (ArrayPtr.alloc 1 : ArrayPtr α).set count x,
                     capacity_ := v.capacity_ + 1 }
      else if v.size_ < v.capacity_ then
        let shifted := moveBackwardWithin (v.size_ - count) v.size_ (v.size_ + 1) v.items_
        (value.read shifted).map fun x =>
          { v with items_ := value.movedOut x (shifted.set count x) }
      else
        let new_capacity := max (v.size_ + 1) (v.capacity_ * 2)
        let m1 := moveLoop v.size_ v.items_ 0 (ArrayPtr.alloc new_capacity) 0
        let m2 := moveBackwardLoop (v.size_ - count) m1.1 v.size_ m1.2 (v.size_ + 1)
        (value.read m2.1).map fun x =>
          { v with items_ := m2.2.set count x, capacity_ := new_capacity }
    r.map fun v1 => ({ v1 with size_ := v1.size_ + 1 }, count)

/-- Source: `void PopBack() noexcept`. -/
def PopBack [Inhabited α] [Movable α] (v : SimpleVector α) : SimpleVector α :=
  if !v.IsEmpty then v.Resize (v.size_ - 1) else v

/-- Source: `Iterator Erase(ConstIterator pos)` with `count = pos - begin()`: the assertion
`pos < end()`, the test `count > size_` that throws, the forward move of the range
`[count + 1, size_)` onto `count`, and `--size_`.  When `count = size_` gets past the
assertion (under `NDEBUG`) and past the test, `std::move` is called on the range
`[size_ + 1, size_)`, whose end precedes its start: that call is undefined. -/
def Erase [Movable α] (dbg : Bool) (v : SimpleVector α) (count : Nat) :
    Except Failure (SimpleVector α × Nat) :=
  if dbg && !(decide (count < v.size_)) then .error .assertFailed
  else if count > v.size_ then .error .outOfRange
  else if count + 1 > v.size_ then .error .undefined
  else
    let items := moveWithin (v.size_ - (count + 1)) (count + 1) count v.items_
    .ok ({ v with items_ := items, size_ := decr v.size_ }, count)

/-- Source: `void swap(SimpleVector& other) noexcept`: returns the new `*this` and the new
`other`. -/
def swap (v other : SimpleVector α) : SimpleVector α × SimpleVector α :=
  ({ items_ := other.items_, size_ := other.size_, capacity_ := other.capacity_ },
   { items_ := v.items_, size_ := v.size_, capacity_ := v.capacity_ })

/-- Source: `Type& operator[](size_t index) noexcept`, read: `assert(index < size_)` and then
`*(items_.Get() + index)`. -/
def index (dbg : Bool) (v : SimpleVector α) (i : Nat) : Except Failure α :=
  if dbg && !(decide (i < v.size_)) then .error .assertFailed
  else
    match v.items_[i]? with
    | some x => .ok x
    | none => .error .badRead

/-- Source: `Type& At(size_t index)`, read: throws `std::out_of_range` when `!(index < size_)`,
else `(*this)[index]`. -/
def At (dbg : Bool) (v : SimpleVector α) (i : Nat) : Except Failure α :=
  if ¬ (i < v.size_) then .error .outOfRange
  else v.index dbg i

end SimpleVector

/-- The objects of a program, addressed by their identity (`this`, `&rhs`). -/
abbrev Store (α : Type) := Nat → SimpleVector α

/-- Source: `SimpleVector& operator=(const SimpleVector& rhs)` for `this` the object `l` and `rhs`
the object `r`: unless they are the same object, `rhs_copy(rhs)` then `swap(rhs_copy)`. -/
def copyAssign {α : Type} [Inhabited α] (st : Store α) (l r : Nat) : Store α :=
  if l ≠ r then
    let rhs_copy := SimpleVector.copy (st r)
    Function.update st l ((st l).swap rhs_copy).1
  else st

/-- Source: `SimpleVector& operator=(SimpleVector&& rhs)` for `this` the object `l` and `rhs` the
object `r`: unless they are the same object, `size_` and `capacity_` are exchanged out of
`rhs` (which keeps `0`) and the buffer is moved. -/
def moveAssign {α : Type} (st : Store α) (l r : Nat) : Store α :=
  if l ≠ r then
    let rhs := st r
    let mv := ArrayPtr.moveFrom rhs.items_
    let st1 := Function.update st l { items_ := mv.1, size_ := rhs.size_, capacity_ := rhs.capacity_ }
    Function.update st1 r { items_ := mv.2, size_ := 0, capacity_ := 0 }
  else st

/-- The loop of `std::equal(a + first1, a + first1 + n, b + first2)`:
`for (; first1 != last1; ++first1, ++first2) if (!(*first1 == *first2)) return false;`
and then `return true;`.  A read outside a buffer is undefined in C++; the loop then
answers `false`. -/
def equalLoop {α : Type} [DecidableEq α] : Nat → List α → Nat → List α → Nat → Bool
  | 0, _, _, _, _ => true
  | n + 1, a, first1, b, first2 =>
    match a[first1]?, b[first2]? with
    | some x, some y => if x = y then equalLoop n a (first1 + 1) b (first2 + 1) else false
    | _, _ => false

/-- The loop of `std::lexicographical_compare(a + first1, a + first1 + n1, b + first2,
b + first2 + n2)`:
`for (; first1 != last1 && first2 != last2; ++first1, ++first2)`
`{ if (*first1 < *first2) return true; if (*first2 < *first1) return false; }`
and then `return first1 == last1 && first2 != last2;`.  A read outside a buffer is undefined
in C++; the loop then answers `false`. -/
def lexicographicalCompareLoop {α : Type} [LT α] [DecidableRel (fun (x y : α) => x < y)] :
    Nat → List α → Nat → Nat → List α → Nat → Bool
  | 0, _, _, n2, _, _ => decide (0 < n2)
  | n1 + 1, a, first1, n2, b, first2 =>
    match n2 with
    | 0 => false
    | m2 + 1 =>
      match a[first1]?, b[first2]? with
      | some x, some y =>
        if x < y then true
        else if y < x then false
        else lexicographicalCompareLoop n1 a (first1 + 1) m2 b (first2 + 1)
      | _, _ => false

/-- Source: `operator==(const SimpleVector& lhs, const SimpleVector& rhs)` for `lhs` the object
`l` and `rhs` the object `r`: `if (&lhs == &rhs) return true;` and then
`lhs.GetSize() == rhs.GetSize() && std::equal(lhs.begin(), lhs.end(), rhs.begin())`. -/
def opEq {α : Type} [DecidableEq α] (st : Store α) (l r : Nat) : Bool :=
  if l = r then true
  else
    decide ((st l).GetSize = (st r).GetSize) &&
      equalLoop (st l).size_ (st l).items_ 0 (st r).items_ 0

/-- Source: `operator!=`: `!(lhs == rhs)`. -/
def opNe {α : Type} [DecidableEq α] (st : Store α) (l r : Nat) : Bool :=
  !(opEq st l r)

/-- Source: `operator<`: `std::lexicographical_compare(lhs.cbegin(), lhs.cend(), rhs.cbegin(),
rhs.cend())`. -/
def opLt {α : Type} [LT α] [DecidableRel (fun (x y : α) => x < y)] (st : Store α)
    (l r : Nat) : Bool :=
  lexicographicalCompareLoop (st l).size_ (st l).items_ 0 (st r).size_ (st r).items_ 0

/-- Source: `operator<=`: `!(rhs < lhs)`. -/
def opLe {α : Type} [LT α] [DecidableRel (fun (x y : α) => x < y)] (st : Store α)
    (l r : Nat) : Bool :=
  !(opLt st r l)

/-- Source: `operator>`: `rhs < lhs`. -/
def opGt {α : Type} [LT α] [DecidableRel (fun (x y : α) => x < y)] (st : Store α)
    (l r : Nat) : Bool :=
  opLt st r l

/-- Source: `operator>=`: `!(lhs < rhs)`. -/
def opGe {α : Type} [LT α] [DecidableRel (fun (x y : α) => x < y)] (st : Store α)
    (l r : Nat) : Bool :=
  !(opLt st l r)

/-! ## The loops of the standard algorithms -/

section Loops

variable {α : Type}

theorem fillLoop_length (n first : Nat) (x : α) (buf : List α) :
    (fillLoop n first x buf).length = buf.length := by
  induction n generalizing first buf with
  | zero => rfl
  | succ n ih => simp [fillLoop, ih]

theorem fillLoop_getElem? (n first : Nat) (x : α) (buf : List α) (i : Nat) :
    (fillLoop n first x buf)[i]? =
      if first ≤ i ∧ i < first + n ∧ i < buf.length then some x else buf[i]? := by
  induction n generalizing first buf with
  | zero =>
    simp only [fillLoop]
    rw [if_neg (by omega)]
  | succ n ih =>
    simp only [fillLoop, ih, List.length_set, List.getElem?_set]
    split_ifs <;>
      first
      | rfl
      | omega
      | (symm; rw [List.getElem?_eq_none_iff]; omega)

theorem copyLoop_length (n : Nat) (src : List α) (first : Nat) (dst : List α) (d : Nat) :
    (copyLoop n src first dst d).length = dst.length := by
  induction n generalizing first dst d with
  | zero => rfl
  | succ n ih =>
    simp only [copyLoop]
    cases src[first]? with
    | none => rfl
    | some x => simp [ih]

theorem copyLoop_getElem? (n : Nat) (src : List α) (first : Nat) (dst : List α) (d i : Nat)
    (h : first + n ≤ src.length) :
    (copyLoop n src first dst d)[i]? =
      if d ≤ i ∧ i < d + n ∧ i < dst.length then src[first + (i - d)]? else dst[i]? := by
  induction n generalizing first dst d with
  | zero =>
    simp only [copyLoop]
    rw [if_neg (by omega)]
  | succ n ih =>
    have hf : first < src.length := by omega
    simp only [copyLoop, List.getElem?_eq_getElem hf]
    rw [ih (first + 1) _ (d + 1) (by omega)]
    simp only [List.length_set, List.getElem?_set]
    split_ifs with h1 h2 h3 h4 h5 h6
    all_goals
      first
      | rfl
      | omega
      | (symm; rw [List.getElem?_eq_none_iff]; omega)
      | (congr 1; omega)
      | (subst h3; simp [hf])

theorem copyLoop_set_src (n : Nat) (src : List α) (first : Nat) (dst : List α) (d k : Nat)
    (y : α) (hk : k < first) :
    copyLoop n (src.set k y) first dst d = copyLoop n src first dst d := by
  induction n generalizing first dst d with
  | zero => rfl
  | succ n ih =>
    have hne : k ≠ first := by omega
    simp only [copyLoop, List.getElem?_set_ne hne]
    cases src[first]? with
    | none => rfl
    | some x => exact ih (first + 1) _ (d + 1) (by omega)

theorem moveLoop_snd [Movable α] (n : Nat) (src : List α) (first : Nat) (dst : List α)
    (d : Nat) : (moveLoop n src first dst d).2 = copyLoop n src first dst d := by
  induction n generalizing src first dst d with
  | zero => rfl
  | succ n ih =>
    simp only [moveLoop, copyLoop]
    cases src[first]? with
    | none => rfl
    | some x =>
      simp only []
      rw [ih, copyLoop_set_src _ _ _ _ _ _ _ (by omega)]

theorem moveWithin_length [Movable α] (n first d : Nat) (buf : List α) :
    (moveWithin n first d buf).length = buf.length := by
  induction n generalizing first d buf with
  | zero => rfl
  | succ n ih =>
    simp only [moveWithin]
    cases buf[first]? with
    | none => rfl
    | some x => simp [ih]

theorem moveWithin_getElem? [Movable α] (n d : Nat) (buf : List α) (i : Nat)
    (h1 : d + 1 + n ≤ buf.length) (hi : i < d + n) :
    (moveWithin n (d + 1) d buf)[i]? = if i < d then buf[i]? else buf[i + 1]? := by
  induction n generalizing d buf with
  | zero =>
    simp only [moveWithin]
    rw [if_pos (by omega)]
  | succ n ih =>
    have hf : d + 1 < buf.length := by omega
    simp only [moveWithin, List.getElem?_eq_getElem hf]
    rw [ih (d + 1) _ (by simp only [List.length_set]; omega) (by omega)]
    simp only [List.getElem?_set, List.length_set]
    split_ifs with h1 h2 h3 h4 h5 h6
    all_goals
      first
      | rfl
      | omega
      | (subst_vars; rw [List.getElem?_eq_getElem hf])

end Loops

/-! ## Facts shared by several operations -/

namespace SimpleVector

variable {α : Type}

/-- The result of `PushBack` spelled out: the reference is read after the release of the
old buffer when the call grows, from the buffer in place when it does not, and the value
read is stored at the offset `size_`. -/
theorem PushBack_eq [Inhabited α] (v : SimpleVector α) (item : Arg α) :
    v.PushBack item =
      (if v.size_ + 1 > v.capacity_ then item.readReleased else item.read v.items_).map
        fun x =>
          { items_ :=
              (if v.size_ + 1 > v.capacity_ then
                copyLoop v.size_ v.items_ 0
                  (ArrayPtr.alloc (max (v.size_ + 1) (v.capacity_ * 2))) 0
               else v.items_).set v.size_ x,
            size_ := v.size_ + 1,
            capacity_ :=
              if v.size_ + 1 > v.capacity_ then max (v.size_ + 1) (v.capacity_ * 2)
              else v.capacity_ } := by
  unfold PushBack
  by_cases hg : v.size_ + 1 > v.capacity_
  · simp only [hg, if_true]
  · simp only [hg, if_false]

/-- With an argument outside the vector the two `PushBack` overloads leave the same
state. -/
theorem PushBackMove_eq_PushBack [Inhabited α] [Movable α] (v : SimpleVector α) (x : α) :
    v.PushBackMove (.outside x) = v.PushBack (.outside x) := by
  unfold PushBackMove PushBack
  by_cases hg : v.size_ + 1 > v.capacity_
  · simp only [hg, if_true, moveLoop_snd]
  · simp only [hg, if_false, Arg.movedOut]

/-- A `PushBack` whose argument is outside the vector returns. -/
theorem PushBack_outside [Inhabited α] (v : SimpleVector α) (x : α) :
    ∃ w, v.PushBack (.outside x) = .ok w := by
  rw [PushBack_eq]
  by_cases hg : v.size_ + 1 > v.capacity_
  · simp only [hg, if_true]
    exact ⟨_, rfl⟩
  · simp only [hg, if_false]
    exact ⟨_, rfl⟩

/-- What a `PushBack` that returns has done: the value `x` read through its argument is
appended, the size grows by one, the capacity follows the growth rule and the buffer has
`capacity` slots again. -/
theorem PushBack_ok [Inhabited α] (v w : SimpleVector α) (item : Arg α)
    (h : v.PushBack item = .ok w) :
    ∃ x, (if v.size_ + 1 > v.capacity_ then item.readReleased else item.read v.items_)
        = .ok x ∧
      w.size_ = v.size_ + 1 ∧
      w.capacity_ =
        (if v.size_ + 1 > v.capacity_ then max (v.size_ + 1) (v.capacity_ * 2)
         else v.capacity_) ∧
      (v.items_.length = v.capacity_ → w.items_.length = w.capacity_) ∧
      (v.items_.length = v.capacity_ → v.size_ ≤ v.capacity_ →
        w.toList = v.toList ++ [x]) := by
  rw [PushBack_eq] at h
  cases hr : (if v.size_ + 1 > v.capacity_ then item.readReleased else item.read v.items_) with
  | error e =>
    rw [hr] at h
    cases h
  | ok x =>
    rw [hr] at h
    simp only [Except.map] at h
    injection h with h
    subst h
    refine ⟨x, rfl, rfl, rfl, ?_, ?_⟩
    · intro hbuf
      by_cases hg : v.size_ + 1 > v.capacity_
      · simp [hg, copyLoop_length, ArrayPtr.alloc]
      · simpa [hg] using hbuf
    · intro hbuf hsz
      have hmin : min v.size_ v.items_.length = v.size_ := by omega
      apply List.ext_getElem?
      intro i
      unfold toList
      by_cases hg : v.size_ + 1 > v.capacity_
      · simp only [hg, if_true, List.getElem?_take, List.getElem?_set, copyLoop_length,
          ArrayPtr.alloc,
          List.length_replicate, List.getElem?_append, List.length_take, hmin,
          copyLoop_getElem? _ _ _ _ _ _ (show 0 + v.size_ ≤ v.items_.length by omega),
          List.getElem?_replicate]
        split_ifs
        all_goals
          first
          | rfl
          | omega
          | (subst_vars; simp; done)
          | (simp; done)
          | (simp; omega)
      · simp only [hg, if_false, List.getElem?_take, List.getElem?_set, List.getElem?_append,
          List.length_take, hmin]
        split_ifs
        all_goals
          first
          | rfl
          | omega
          | (subst_vars; simp; done)
          | (simp; done)
          | (simp; omega)

/-- What a `PushBack` of an argument outside the vector has done. -/
theorem PushBack_outside_ok [Inhabited α] (v w : SimpleVector α) (x : α)
    (h : v.PushBack (.outside x) = .ok w) :
    w.size_ = v.size_ + 1 ∧
      w.capacity_ =
        (if v.size_ + 1 > v.capacity_ then max (v.size_ + 1) (v.capacity_ * 2)
         else v.capacity_) ∧
      (v.items_.length = v.capacity_ → w.items_.length = w.capacity_) ∧
      (v.items_.length = v.capacity_ → v.size_ ≤ v.capacity_ →
        w.toList = v.toList ++ [x]) := by
  obtain ⟨y, hy, h1, h2, h3, h4⟩ := PushBack_ok v w (.outside x) h
  have hyx : y = x := by
    split_ifs at hy
    · injection hy with e
      exact e.symm
    · injection hy with e
      exact e.symm
  subst hyx
  exact ⟨h1, h2, h3, h4⟩

/-- Erasing at an offset below the size: the call returns, the remaining elements keep
their order, the size drops by one and the capacity stays. -/
theorem Erase_valid [Movable α] (dbg : Bool) (v : SimpleVector α) (p : Nat)
    (hbuf : v.size_ ≤ v.items_.length) (hp : p < v.size_) :
    ∃ w, v.Erase dbg p = .ok (w, p) ∧ w.toList = v.toList.eraseIdx p ∧
      w.size_ = v.size_ - 1 ∧ w.capacity_ = v.capacity_ ∧ w.items_.length = v.items_.length := by
  have hd : decr v.size_ = v.size_ - 1 := by
    unfold decr
    rw [if_neg (by omega)]
  refine ⟨{ v with items_ := moveWithin (v.size_ - (p + 1)) (p + 1) p v.items_,
                   size_ := decr v.size_ }, ?_, ?_, hd, rfl, ?_⟩
  · unfold Erase
    have h1 : (dbg && !(decide (p < v.size_))) = false := by simp [hp]
    rw [h1]
    simp only [Bool.false_eq_true, if_false]
    rw [if_neg (show ¬ p > v.size_ by omega), if_neg (show ¬ p + 1 > v.size_ by omega)]
  · apply List.ext_getElem?
    intro i
    simp only [toList, hd, List.getElem?_take, List.getElem?_eraseIdx]
    by_cases hi : i < v.size_ - 1
    · rw [if_pos hi, moveWithin_getElem? _ _ _ _ (by omega) (by omega)]
      split_ifs
      all_goals first | rfl | omega
    · rw [if_neg hi]
      split_ifs
      all_goals first | rfl | omega
  · simp [moveWithin_length]

/-- The fields the copy constructor sets: the size of the source, and no capacity. -/
theorem copy_fields [Inhabited α] (a : SimpleVector α) :
    (copy a).size_ = a.size_ ∧ (copy a).capacity_ = 0 ∧ (copy a).items_.length = a.size_ := by
  refine ⟨rfl, rfl, ?_⟩
  simp [copy, copyLoop_length, ArrayPtr.alloc]

/-- The copy constructor copies the logical contents in order. -/
theorem copy_toList [Inhabited α] (a : SimpleVector α) (hbuf : a.size_ ≤ a.items_.length) :
    (copy a).toList = a.toList := by
  apply List.ext_getElem?
  intro i
  simp only [copy, toList, List.getElem?_take, ArrayPtr.alloc, List.length_replicate,
    List.getElem?_replicate,
    copyLoop_getElem? _ _ _ _ _ _ (show 0 + a.size_ ≤ a.items_.length by omega)]
  split_ifs
  all_goals
    first
    | rfl
    | omega
    | (congr 1; omega)

/-- The size `Resize` leaves, branch by branch. -/
theorem Resize_size [Inhabited α] [Movable α] (v : SimpleVector α) (n : Nat) :
    (v.Resize n).size_ = if n ≤ v.size_ then n else if n ≤ v.capacity_ then v.size_ else n := by
  unfold Resize
  by_cases h1 : n ≤ v.size_
  · by_cases h2 : n ≤ v.capacity_
    · have h3 : ¬ v.capacity_ < n := by omega
      simp [h1, h2, h3]
    · have h3 : v.capacity_ < n := by omega
      simp [h1, h2, h3]
  · by_cases h2 : n ≤ v.capacity_
    · have h3 : ¬ v.capacity_ < n := by omega
      simp [h1, h2, h3]
    · have h3 : v.capacity_ < n := by omega
      simp [h1, h2, h3]

end SimpleVector

/-! ## Further facts about single operations -/

namespace SimpleVector

variable {α : Type}

/-- A `Resize` to a size within both the size and the capacity only lowers `size_`. -/
theorem Resize_shrink [Inhabited α] [Movable α] (v : SimpleVector α) (n : Nat)
    (h1 : n ≤ v.size_) (h2 : n ≤ v.capacity_) :
    v.Resize n = { v with size_ := n } := by
  have h3 : ¬ v.capacity_ < n := by omega
  simp [Resize, h1, h2, h3, Fill, fillLoop]

/-- The capacity `Resize` leaves when the new size exceeds the capacity. -/
theorem Resize_capacity_grow [Inhabited α] [Movable α] (v : SimpleVector α) (n : Nat)
    (h : n > v.capacity_) : (v.Resize n).capacity_ = max n (v.capacity_ * 2) := by
  have h2 : ¬ n ≤ v.capacity_ := by omega
  unfold Resize
  by_cases h1 : n ≤ v.size_
  · simp [h1, h2, h]
  · simp [h1, h2, h]

/-- A `Reserve` of at most the capacity changes nothing. -/
theorem Reserve_noop [Inhabited α] (v : SimpleVector α) (n : Nat) (h : n ≤ v.capacity_) :
    v.Reserve n = v := by
  unfold Reserve
  rw [if_neg (show ¬ n > v.capacity_ by omega)]

/-- A `Reserve` beyond the capacity sets the capacity to the request and keeps the size. -/
theorem Reserve_grow [Inhabited α] (v : SimpleVector α) (n : Nat) (h : n > v.capacity_) :
    (v.Reserve n).capacity_ = n ∧ (v.Reserve n).size_ = v.size_ ∧
      (v.Reserve n).items_.length = n := by
  unfold Reserve
  rw [if_pos h]
  exact ⟨rfl, rfl, by simp [copyLoop_length, ArrayPtr.alloc]⟩

/-- A `Reserve` keeps the size, whatever the request. -/
theorem Reserve_size [Inhabited α] (v : SimpleVector α) (n : Nat) :
    (v.Reserve n).size_ = v.size_ := by
  unfold Reserve
  split_ifs <;> rfl

/-- A `Reserve` keeps the logical contents. -/
theorem Reserve_toList [Inhabited α] (v : SimpleVector α) (n : Nat)
    (hbuf : v.items_.length = v.capacity_) (hsz : v.size_ ≤ v.capacity_) :
    (v.Reserve n).toList = v.toList := by
  by_cases h : n ≤ v.capacity_
  · rw [Reserve_noop v n h]
  · apply List.ext_getElem?
    intro i
    unfold Reserve toList
    rw [if_pos (show n > v.capacity_ by omega)]
    simp only [List.getElem?_take, ArrayPtr.alloc, List.length_replicate,
      List.getElem?_replicate,
      copyLoop_getElem? _ _ _ _ _ _ (show 0 + v.size_ ≤ v.items_.length by omega)]
    split_ifs
    all_goals
      first
      | rfl
      | omega
      | (congr 1; omega)

/-- A mapped result that is a success comes from a success. -/
theorem except_map_eq_ok {ε β γ : Type} (f : β → γ) (r : Except ε β) (y : γ)
    (h : r.map f = .ok y) : ∃ x, r = .ok x ∧ f x = y := by
  cases r with
  | error e => cases h
  | ok x =>
    refine ⟨x, rfl, ?_⟩
    injection h

/-- The capacity the copying `insert` leaves when it returns, branch by branch. -/
theorem insert_capacity [Inhabited α] (dbg : Bool) (v w : SimpleVector α) (p q : Nat)
    (a : Arg α) (h : v.insert dbg p a = .ok (w, q)) :
    w.capacity_ = (if v.capacity_ = 0 then 1 else if v.size_ < v.capacity_ then v.capacity_
                   else max (v.size_ + 1) (v.capacity_ * 2)) := by
  unfold insert at h
  by_cases h0 : (dbg && !(decide (p ≤ v.size_))) = true
  · rw [if_pos h0] at h
    cases h
  rw [if_neg h0] at h
  by_cases h1 : p > v.size_
  · rw [if_pos h1] at h
    cases h
  rw [if_neg h1] at h
  obtain ⟨v1, hR, hv1⟩ := except_map_eq_ok _ _ _ h
  have hw : w.capacity_ = v1.capacity_ := by
    injection hv1 with e1 _
    rw [← e1]
  rw [hw]
  by_cases h2 : v.capacity_ = 0
  · rw [if_pos h2] at hR
    rw [if_pos h2]
    by_cases h3 : p ≥ 1
    · rw [if_pos h3] at hR
      cases hR
    · rw [if_neg h3] at hR
      obtain ⟨x, _, hx⟩ := except_map_eq_ok _ _ _ hR
      rw [← hx]
      simp [h2]
  · rw [if_neg h2] at hR
    rw [if_neg h2]
    by_cases h3 : v.size_ < v.capacity_
    · rw [if_pos h3] at hR
      rw [if_pos h3]
      obtain ⟨x, _, hx⟩ := except_map_eq_ok _ _ _ hR
      rw [← hx]
    · rw [if_neg h3] at hR
      rw [if_neg h3]
      obtain ⟨x, _, hx⟩ := except_map_eq_ok _ _ _ hR
      rw [← hx]

/-- The capacity the moving `Insert` leaves when it returns, branch by branch. -/
theorem Insert_capacity [Inhabited α] [Movable α] (dbg : Bool) (v w : SimpleVector α)
    (p q : Nat) (a : Arg α) (h : v.Insert dbg p a = .ok (w, q)) :
    w.capacity_ = (if v.capacity_ = 0 then 1 else if v.size_ < v.capacity_ then v.capacity_
                   else max (v.size_ + 1) (v.capacity_ * 2)) := by
  unfold Insert at h
  by_cases h0 : (dbg && !(decide (p ≤ v.size_))) = true
  · rw [if_pos h0] at h
    cases h
  rw [if_neg h0] at h
  by_cases h1 : p > v.size_
  · rw [if_pos h1] at h
    cases h
  rw [if_neg h1] at h
  obtain ⟨v1, hR, hv1⟩ := except_map_eq_ok _ _ _ h
  have hw : w.capacity_ = v1.capacity_ := by
    injection hv1 with e1 _
    rw [← e1]
  rw [hw]
  by_cases h2 : v.capacity_ = 0
  · rw [if_pos h2] at hR
    rw [if_pos h2]
    by_cases h3 : p ≥ 1
    · rw [if_pos h3] at hR
      cases hR
    · rw [if_neg h3] at hR
      obtain ⟨x, _, hx⟩ := except_map_eq_ok _ _ _ hR
      rw [← hx]
      simp [h2]
  · rw [if_neg h2] at hR
    rw [if_neg h2]
    by_cases h3 : v.size_ < v.capacity_
    · rw [if_pos h3] at hR
      rw [if_pos h3]
      obtain ⟨x, _, hx⟩ := except_map_eq_ok _ _ _ hR
      rw [← hx]
    · rw [if_neg h3] at hR
      rw [if_neg h3]
      obtain ⟨x, _, hx⟩ := except_map_eq_ok _ _ _ hR
      rw [← hx]

/-- Outside the valid range: with assertions on, `Erase` stops at the assertion for every
offset from the size on; with assertions off it throws for every offset above the size. -/
theorem Erase_beyond [Movable α] (v : SimpleVector α) (p : Nat) :
    (v.size_ ≤ p → v.Erase true p = .error .assertFailed) ∧
    (v.size_ < p → v.Erase false p = .error .outOfRange) := by
  constructor
  · intro h
    unfold Erase
    have h1 : (true && !(decide (p < v.size_))) = true := by
      simp only [Bool.true_and, Bool.not_eq_true', decide_eq_false_iff_not]
      omega
    rw [h1]
    rfl
  · intro h
    unfold Erase
    simp only [Bool.false_and, Bool.false_eq_true, if_false]
    rw [if_pos h]

end SimpleVector

/-! ## The comparison operators -/

section Comparison

variable {α : Type}

open SimpleVector

theorem equalLoop_iff [DecidableEq α] (n : Nat) (a : List α) (f1 : Nat) (b : List α)
    (f2 : Nat) (h1 : f1 + n ≤ a.length) (h2 : f2 + n ≤ b.length) :
    equalLoop n a f1 b f2 = true ↔ ∀ i, i < n → a[f1 + i]? = b[f2 + i]? := by
  induction n generalizing f1 f2 with
  | zero => simp [equalLoop]
  | succ n ih =>
    have ha : a[f1]? = some a[f1] := List.getElem?_eq_getElem (by omega)
    have hb : b[f2]? = some b[f2] := List.getElem?_eq_getElem (by omega)
    simp only [equalLoop, ha, hb]
    by_cases hxy : a[f1] = b[f2]
    · rw [if_pos hxy, ih (f1 + 1) (f2 + 1) (by omega) (by omega)]
      constructor
      · intro H i hi
        cases i with
        | zero => simp [ha, hb, hxy]
        | succ j =>
          have hj := H j (by omega)
          have e1 : f1 + (j + 1) = f1 + 1 + j := by omega
          have e2 : f2 + (j + 1) = f2 + 1 + j := by omega
          rw [e1, e2]
          exact hj
      · intro H i hi
        have hj := H (i + 1) (by omega)
        have e1 : f1 + (i + 1) = f1 + 1 + i := by omega
        have e2 : f2 + (i + 1) = f2 + 1 + i := by omega
        rw [e1, e2] at hj
        exact hj
    · rw [if_neg hxy]
      constructor
      · intro h
        cases h
      · intro H
        have h0 := H 0 (by omega)
        simp only [Nat.add_zero, ha, hb, Option.some.injEq] at h0
        exact absurd h0 hxy

/-- Two vectors whose buffers hold their logical ranges have the same logical contents
exactly when they have the same size and agree on every slot below it. -/
theorem toList_eq_iff (a b : SimpleVector α) (ha : a.size_ ≤ a.items_.length)
    (hb : b.size_ ≤ b.items_.length) :
    a.toList = b.toList ↔
      a.size_ = b.size_ ∧ ∀ i, i < a.size_ → a.items_[i]? = b.items_[i]? := by
  constructor
  · intro h
    have hlen : a.size_ = b.size_ := by
      have := congrArg List.length h
      simp only [toList, List.length_take] at this
      omega
    refine ⟨hlen, ?_⟩
    intro i hi
    have hi2 := congrArg (fun l => l[i]?) h
    simp only [toList, List.getElem?_take] at hi2
    rw [if_pos hi, if_pos (by omega)] at hi2
    exact hi2
  · rintro ⟨hlen, H⟩
    apply List.ext_getElem?
    intro i
    simp only [toList, List.getElem?_take]
    by_cases hi : i < a.size_
    · rw [if_pos hi, if_pos (by omega)]
      exact H i hi
    · rw [if_neg hi, if_neg (by omega)]

theorem opEq_iff [DecidableEq α] (st : Store α) (l r : Nat)
    (hl : (st l).size_ ≤ (st l).items_.length) (hr : (st r).size_ ≤ (st r).items_.length) :
    opEq st l r = true ↔
      (st l).size_ = (st r).size_ ∧ ∀ i, i < (st l).size_ → (st l).items_[i]? = (st r).items_[i]? := by
  unfold opEq
  by_cases hlr : l = r
  · subst hlr
    simp
  · rw [if_neg hlr]
    simp only [Bool.and_eq_true, decide_eq_true_eq, GetSize]
    constructor
    · rintro ⟨hs, he⟩
      refine ⟨hs, ?_⟩
      have := (equalLoop_iff (st l).size_ (st l).items_ 0 (st r).items_ 0 (by omega)
        (by omega)).mp he
      simpa using this
    · rintro ⟨hs, H⟩
      refine ⟨hs, ?_⟩
      apply (equalLoop_iff (st l).size_ (st l).items_ 0 (st r).items_ 0 (by omega)
        (by omega)).mpr
      simpa using H

theorem opEq_iff_toList [DecidableEq α] (st : Store α) (l r : Nat)
    (hl : (st l).size_ ≤ (st l).items_.length) (hr : (st r).size_ ≤ (st r).items_.length) :
    opEq st l r = true ↔ (st l).toList = (st r).toList := by
  rw [opEq_iff st l r hl hr, toList_eq_iff (st l) (st r) hl hr]

theorem lex_cons_iff [LT α] (x y : α) (xs ys : List α) :
    List.Lex (fun (u v : α) => u < v) (x :: xs) (y :: ys) ↔
      x < y ∨ (x = y ∧ List.Lex (fun (u v : α) => u < v) xs ys) := by
  constructor
  · intro h
    cases h with
    | cons h => exact Or.inr ⟨rfl, h⟩
    | rel h => exact Or.inl h
  · rintro (h | ⟨rfl, h⟩)
    · exact List.Lex.rel h
    · exact List.Lex.cons h

theorem drop_take_succ (l : List α) (f n : Nat) (h : f < l.length) :
    (l.drop f).take (n + 1) = l[f] :: (l.drop (f + 1)).take n := by
  rw [List.drop_eq_getElem_cons h, List.take_succ_cons]

theorem lexicographicalCompareLoop_iff [LinearOrder α] (n1 : Nat) (a : List α) (f1 n2 : Nat)
    (b : List α) (f2 : Nat) (h1 : f1 + n1 ≤ a.length) (h2 : f2 + n2 ≤ b.length) :
    lexicographicalCompareLoop n1 a f1 n2 b f2 = true ↔
      List.Lex (fun (u v : α) => u < v) ((a.drop f1).take n1) ((b.drop f2).take n2) := by
  induction n1 generalizing f1 n2 f2 with
  | zero =>
    cases n2 with
    | zero => simp [lexicographicalCompareLoop, List.Lex.not_nil_right]
    | succ m2 =>
      rw [drop_take_succ b f2 m2 (by omega)]
      simp [lexicographicalCompareLoop, List.Lex.nil]
  | succ n1 ih =>
    cases n2 with
    | zero => simp [lexicographicalCompareLoop, List.Lex.not_nil_right]
    | succ m2 =>
      have ha : a[f1]? = some a[f1] := List.getElem?_eq_getElem (by omega)
      have hb : b[f2]? = some b[f2] := List.getElem?_eq_getElem (by omega)
      rw [drop_take_succ a f1 n1 (by omega), drop_take_succ b f2 m2 (by omega), lex_cons_iff]
      simp only [lexicographicalCompareLoop, ha, hb]
      by_cases hxy : a[f1] < b[f2]
      · simp [hxy]
      · by_cases hyx : b[f2] < a[f1]
        · simp only [if_neg hxy, if_pos hyx]
          constructor
          · intro h
            cases h
          · rintro (h | ⟨h, _⟩)
            · exact absurd h hxy
            · rw [h] at hyx
              exact absurd hyx (lt_irrefl _)
        · have heq : a[f1] = b[f2] := le_antisymm (not_lt.mp hyx) (not_lt.mp hxy)
          simp only [if_neg hxy, if_neg hyx]
          rw [ih (f1 + 1) m2 (f2 + 1) (by omega) (by omega)]
          constructor
          · intro h
            exact Or.inr ⟨heq, h⟩
          · rintro (h | ⟨_, h⟩)
            · exact absurd h hxy
            · exact h

theorem opLt_iff [LinearOrder α] (st : Store α) (l r : Nat)
    (hl : (st l).size_ ≤ (st l).items_.length) (hr : (st r).size_ ≤ (st r).items_.length) :
    opLt st l r = true ↔ List.Lex (fun (u v : α) => u < v) (st l).toList (st r).toList := by
  unfold opLt
  rw [lexicographicalCompareLoop_iff _ _ _ _ _ _ (by omega) (by omega)]
  simp [toList]

/-- The lexicographic order spelled out: `xs` precedes `ys` exactly when, at some index `k`
up to which they agree, either `xs` ends and `ys` goes on, or both have an element and the
one of `xs` is smaller. -/
theorem lex_iff_first_difference [LT α] (xs ys : List α) :
    List.Lex (fun (u v : α) => u < v) xs ys ↔
      ∃ k, xs.take k = ys.take k ∧
        ((xs.length = k ∧ k < ys.length) ∨
          ∃ x y, xs[k]? = some x ∧ ys[k]? = some y ∧ x < y) := by
  induction xs generalizing ys with
  | nil =>
    cases ys with
    | nil =>
      constructor
      · intro h
        exact absurd h (List.Lex.not_nil_right _ _)
      · rintro ⟨k, _, (⟨_, h⟩ | ⟨x, y, h, _⟩)⟩
        · simp at h
        · simp at h
    | cons y ys =>
      constructor
      · intro _
        exact ⟨0, by simp, Or.inl ⟨rfl, by simp⟩⟩
      · intro _
        exact List.Lex.nil
  | cons x xs ih =>
    cases ys with
    | nil =>
      constructor
      · intro h
        exact absurd h (List.Lex.not_nil_right _ _)
      · rintro ⟨k, _, (⟨_, h⟩ | ⟨u, v, _, h, _⟩)⟩
        · simp at h
        · simp at h
    | cons y ys =>
      rw [lex_cons_iff, ih ys]
      constructor
      · rintro (h | ⟨rfl, k, hk, hd⟩)
        · exact ⟨0, by simp, Or.inr ⟨x, y, by simp, by simp, h⟩⟩
        · refine ⟨k + 1, by simp [hk], ?_⟩
          rcases hd with ⟨h1, h2⟩ | ⟨u, v, h1, h2, h3⟩
          · exact Or.inl ⟨by simp [h1], by simpa using h2⟩
          · exact Or.inr ⟨u, v, by simpa using h1, by simpa using h2, h3⟩
      · rintro ⟨k, hk, hd⟩
        cases k with
        | zero =>
          rcases hd with ⟨h1, _⟩ | ⟨u, v, h1, h2, h3⟩
          · simp at h1
          · simp only [List.getElem?_cons_zero, Option.some.injEq] at h1 h2
            subst h1 h2
            exact Or.inl h3
        | succ k =>
          simp only [List.take_succ_cons, List.cons.injEq] at hk
          refine Or.inr ⟨hk.1, k, hk.2, ?_⟩
          rcases hd with ⟨h1, h2⟩ | ⟨u, v, h1, h2, h3⟩
          · exact Or.inl ⟨by simpa using h1, by simpa using h2⟩
          · exact Or.inr ⟨u, v, by simpa using h1, by simpa using h2, h3⟩

/-- In a linear order, `ys` does not precede `xs` exactly when `xs` precedes `ys` or the two
lists are equal. -/
theorem not_lex_iff [LinearOrder α] (xs ys : List α) :
    ¬ List.Lex (fun (u v : α) => u < v) ys xs ↔
      List.Lex (fun (u v : α) => u < v) xs ys ∨ xs = ys := by
  constructor
  · intro h
    rcases trichotomous_of (List.Lex (fun (u v : α) => u < v)) xs ys with h1 | h1 | h1
    · exact Or.inl h1
    · exact Or.inr h1
    · exact absurd h1 h
  · rintro (h | h) h2
    · exact asymm_of (List.Lex (fun (u v : α) => u < v)) h h2
    · subst h
      exact asymm_of (List.Lex (fun (u v : α) => u < v)) h2 h2

end Comparison

/-! ## The claims -/

section Claims

variable {α : Type}

open SimpleVector

/-- C1 (the size never exceeds the capacity): the copy constructor breaks the invariant.
Copying the three-element vector `{1, 2, 3}`, whose size 3 is within its capacity 3, gives
a vector of size 3 and capacity 0; copy assignment, which goes through the copy
constructor, leaves the assigned object in the same state. -/
theorem C1_copy_breaks_size_le_capacity :
    (fromInit [1, 2, 3] : SimpleVector Nat).GetSize
      ≤ (fromInit [1, 2, 3] : SimpleVector Nat).GetCapacity ∧
    (copy (fromInit [1, 2, 3] : SimpleVector Nat)).GetSize = 3 ∧
    (copy (fromInit [1, 2, 3] : SimpleVector Nat)).GetCapacity = 0 ∧
    ¬ ((copy (fromInit [1, 2, 3] : SimpleVector Nat)).GetSize
        ≤ (copy (fromInit [1, 2, 3] : SimpleVector Nat)).GetCapacity) ∧
    ¬ ((copyAssign (fun k => if k = 1 then (fromInit [1, 2, 3] : SimpleVector Nat) else empty)
          0 1 0).GetSize
        ≤ (copyAssign (fun k => if k = 1 then (fromInit [1, 2, 3] : SimpleVector Nat) else empty)
          0 1 0).GetCapacity) := by
  decide

/-- C2 (copy construction): the copy of `{1, 2, 3}` with capacity 5 has the size and the
elements of its source, but its capacity is 0, not the size 3 of the source. -/
theorem C2_copy_capacity_is_zero :
    ((fromInit [1, 2, 3] : SimpleVector Nat).Reserve 5).GetCapacity = 5 ∧
    (copy ((fromInit [1, 2, 3] : SimpleVector Nat).Reserve 5)).GetSize
      = ((fromInit [1, 2, 3] : SimpleVector Nat).Reserve 5).GetSize ∧
    (copy ((fromInit [1, 2, 3] : SimpleVector Nat).Reserve 5)).toList = [1, 2, 3] ∧
    (copy ((fromInit [1, 2, 3] : SimpleVector Nat).Reserve 5)).GetCapacity = 0 ∧
    (copy ((fromInit [1, 2, 3] : SimpleVector Nat).Reserve 5)).GetCapacity
      ≠ ((fromInit [1, 2, 3] : SimpleVector Nat).Reserve 5).GetSize := by
  decide

/-- C5 (Erase at a valid position): on a vector whose buffer has `capacity` slots and whose
size is within the capacity, `Erase(begin() + p)` with `p < size` returns normally with the
offset `p`; the contents lose the element at index `p` and keep the others in order; the
size drops by one and the capacity stays. -/
theorem C5_erase_at_valid_position [Movable α] (dbg : Bool) (v : SimpleVector α) (p : Nat)
    (hbuf : v.items_.length = v.GetCapacity) (hsz : v.GetSize ≤ v.GetCapacity)
    (hp : p < v.GetSize) :
    ∃ w, v.Erase dbg p = .ok (w, p) ∧
      w.toList = v.toList.eraseIdx p ∧
      w.toList = v.toList.take p ++ v.toList.drop (p + 1) ∧
      w.GetSize + 1 = v.GetSize ∧
      w.GetCapacity = v.GetCapacity := by
  simp only [GetSize, GetCapacity] at *
  obtain ⟨w, h1, h2, h3, h4, _⟩ := Erase_valid dbg v p (by omega) hp
  refine ⟨w, h1, h2, ?_, by omega, h4⟩
  rw [h2, List.eraseIdx_eq_take_drop_succ]

/-- C5 at `{1, 99, 2, 3}`, offset 0. -/
theorem C5_erase_at_valid_position_witness :
    ((fromInit [1, 99, 2, 3] : SimpleVector Nat).items_.length
        = (fromInit [1, 99, 2, 3] : SimpleVector Nat).GetCapacity ∧
      (fromInit [1, 99, 2, 3] : SimpleVector Nat).GetSize
        ≤ (fromInit [1, 99, 2, 3] : SimpleVector Nat).GetCapacity ∧
      0 < (fromInit [1, 99, 2, 3] : SimpleVector Nat).GetSize) ∧
    ∃ w, (fromInit [1, 99, 2, 3] : SimpleVector Nat).Erase true 0 = .ok (w, 0) ∧
      w.toList = [99, 2, 3] ∧ w.GetSize + 1 = 4 ∧ w.GetCapacity = 4 :=
  ⟨by decide,
   by
    obtain ⟨w, h1, h2, _, h4, h5⟩ :=
      C5_erase_at_valid_position true (fromInit [1, 99, 2, 3] : SimpleVector Nat) 0
        (by decide) (by decide) (by decide)
    exact ⟨w, h1, h2, h4, h5⟩⟩

/-- C6 (checked access): `At(i)` throws `std::out_of_range` exactly when `i` is at least
the size; below the size it is `operator[]`, and on a buffer that holds the logical range it
returns the element of the contents at index `i`.  The read has no effect on the vector: it
produces a value and no new state. -/
theorem C6_at_checked_access (dbg : Bool) (v : SimpleVector α) (i : Nat) :
    (v.At dbg i = .error .outOfRange ↔ v.GetSize ≤ i) ∧
    (i < v.GetSize → v.At dbg i = v.index dbg i) ∧
    (i < v.GetSize → v.GetSize ≤ v.items_.length →
      ∃ x, v.toList[i]? = some x ∧ v.At dbg i = .ok x ∧ v.index dbg i = .ok x) := by
  simp only [GetSize]
  have hidx : i < v.size_ → v.index dbg i
      = (match v.items_[i]? with
         | some x => .ok x
         | none => .error .badRead) := by
    intro hi
    unfold index
    have h1 : (dbg && !(decide (i < v.size_))) = false := by simp [hi]
    rw [h1]
    rfl
  refine ⟨⟨?_, ?_⟩, ?_, ?_⟩
  · intro h
    by_contra hlt
    have hi : i < v.size_ := by omega
    unfold At at h
    rw [if_neg (by simpa using hi), hidx hi] at h
    cases hx : v.items_[i]? with
    | none => rw [hx] at h; cases h
    | some x => rw [hx] at h; cases h
  · intro h
    unfold At
    rw [if_pos (by omega)]
  · intro hi
    unfold At
    rw [if_neg (by simpa using hi)]
  · intro hi hbuf
    have hlen : i < v.items_.length := by omega
    refine ⟨v.items_[i], ?_, ?_, ?_⟩
    · simp only [toList, List.getElem?_take, if_pos hi]
      exact List.getElem?_eq_getElem hlen
    · unfold At
      rw [if_neg (by simpa using hi), hidx hi, List.getElem?_eq_getElem hlen]
    · rw [hidx hi, List.getElem?_eq_getElem hlen]

/-- C6 at `{1, 2, 3}`: index 1 is read, and `At(10)` throws. -/
theorem C6_at_checked_access_witness :
    ((1 < (fromInit [1, 2, 3] : SimpleVector Nat).GetSize) ∧
      (fromInit [1, 2, 3] : SimpleVector Nat).GetSize
        ≤ (fromInit [1, 2, 3] : SimpleVector Nat).items_.length) ∧
    (∃ x, (fromInit [1, 2, 3] : SimpleVector Nat).toList[1]? = some x ∧
      (fromInit [1, 2, 3] : SimpleVector Nat).At true 1 = .ok x ∧
      (fromInit [1, 2, 3] : SimpleVector Nat).index true 1 = .ok x) ∧
    (fromInit [1, 2, 3] : SimpleVector Nat).At true 10 = .error .outOfRange :=
  ⟨by decide,
   (C6_at_checked_access true (fromInit [1, 2, 3] : SimpleVector Nat) 1).2.2
     (by decide) (by decide),
   (C6_at_checked_access true (fromInit [1, 2, 3] : SimpleVector Nat) 10).1.mpr (by decide)⟩

/-- C7 (Resize sets the size): growing within the capacity leaves the size as it was.  The
vector built by a reservation of 2 and one `PushBack(7)` has size 1 and capacity 2; after
`Resize(2)` its size is still 1. -/
theorem C7_resize_within_capacity_keeps_size :
    (reserved 2 : SimpleVector Nat).PushBack (.outside 7)
      = .ok { items_ := [7, 0], size_ := 1, capacity_ := 2 } ∧
    ({ items_ := [7, 0], size_ := 1, capacity_ := 2 } : SimpleVector Nat).GetSize = 1 ∧
    ({ items_ := [7, 0], size_ := 1, capacity_ := 2 } : SimpleVector Nat).GetCapacity = 2 ∧
    (({ items_ := [7, 0], size_ := 1, capacity_ := 2 } : SimpleVector Nat).Resize 2).GetSize
      = 1 ∧
    (({ items_ := [7, 0], size_ := 1, capacity_ := 2 } : SimpleVector Nat).Resize 2).GetSize
      ≠ 2 :=
  ⟨rfl, by decide, by decide, by decide, by decide⟩

/-- C8 (Resize fills the new elements with the default value): growing beyond the capacity
carries over the whole old buffer, stale slots included.  `{1, 2}` after `PopBack()` has
size 1, capacity 2 and still holds 2 in slot 1; after `Resize(3)` the contents are
`[1, 2, 0]`, so the new element at index 1 is 2 and not the default value 0. -/
theorem C8_resize_beyond_capacity_keeps_stale_slot :
    ((fromInit [1, 2] : SimpleVector Nat).PopBack).GetSize = 1 ∧
    ((fromInit [1, 2] : SimpleVector Nat).PopBack).GetCapacity = 2 ∧
    ((fromInit [1, 2] : SimpleVector Nat).PopBack).items_ = [1, 2] ∧
    (((fromInit [1, 2] : SimpleVector Nat).PopBack).Resize 3).GetSize = 3 ∧
    (((fromInit [1, 2] : SimpleVector Nat).PopBack).Resize 3).toList = [1, 2, 0] ∧
    (((fromInit [1, 2] : SimpleVector Nat).PopBack).Resize 3).items_[1]? = some 2 ∧
    (((fromInit [1, 2] : SimpleVector Nat).PopBack).Resize 3).items_[1]?
      ≠ some (default : Nat) := by
  decide

/-- C9 (move leaves the source empty): move construction from `a`, and move assignment of
the object `r` to a different object `l`, leave the source with size 0 and capacity 0 and
give the target the size, the capacity and the contents of the source, no third object
being touched; move assignment of an object to itself changes nothing. -/
theorem C9_move_leaves_source_empty (a : SimpleVector α) (st : Store α) (l r : Nat)
    (hne : l ≠ r) :
    ((moveCtor a).2.GetSize = 0 ∧ (moveCtor a).2.GetCapacity = 0 ∧
      (moveCtor a).1.GetSize = a.GetSize ∧ (moveCtor a).1.GetCapacity = a.GetCapacity ∧
      (moveCtor a).1.toList = a.toList) ∧
    ((moveAssign st l r r).GetSize = 0 ∧ (moveAssign st l r r).GetCapacity = 0 ∧
      (moveAssign st l r l).GetSize = (st r).GetSize ∧
      (moveAssign st l r l).GetCapacity = (st r).GetCapacity ∧
      (moveAssign st l r l).toList = (st r).toList ∧
      ∀ k, k ≠ l → k ≠ r → moveAssign st l r k = st k) ∧
    moveAssign st l l = st := by
  refine ⟨⟨rfl, rfl, rfl, rfl, rfl⟩, ?_, ?_⟩
  · unfold moveAssign
    rw [if_pos hne]
    simp only [ArrayPtr.moveFrom, Function.update_same,
      Function.update_noteq hne, GetSize, GetCapacity, toList]
    refine ⟨trivial, trivial, trivial, trivial, trivial, ?_⟩
    intro k hkl hkr
    rw [Function.update_noteq hkr, Function.update_noteq hkl]
  · unfold moveAssign
    rw [if_neg (by simp)]

/-- C9 at the objects 0 (empty) and 1 (`{1, 2, 3}`): after `obj0 = std::move(obj1)`. -/
theorem C9_move_leaves_source_empty_witness :
    (0 : Nat) ≠ 1 ∧
    (moveAssign (fun k => if k = 1 then (fromInit [1, 2, 3] : SimpleVector Nat) else empty)
      0 1 1).GetSize = 0 ∧
    (moveAssign (fun k => if k = 1 then (fromInit [1, 2, 3] : SimpleVector Nat) else empty)
      0 1 1).GetCapacity = 0 ∧
    (moveAssign (fun k => if k = 1 then (fromInit [1, 2, 3] : SimpleVector Nat) else empty)
      0 1 0).toList = [1, 2, 3] :=
  ⟨by decide,
   (C9_move_leaves_source_empty (fromInit [1, 2, 3] : SimpleVector Nat)
      (fun k => if k = 1 then (fromInit [1, 2, 3] : SimpleVector Nat) else empty)
      0 1 (by decide)).2.1.1,
   (C9_move_leaves_source_empty (fromInit [1, 2, 3] : SimpleVector Nat)
      (fun k => if k = 1 then (fromInit [1, 2, 3] : SimpleVector Nat) else empty)
      0 1 (by decide)).2.1.2.1,
   (C9_move_leaves_source_empty (fromInit [1, 2, 3] : SimpleVector Nat)
      (fun k => if k = 1 then (fromInit [1, 2, 3] : SimpleVector Nat) else empty)
      0 1 (by decide)).2.1.2.2.2.2.1⟩

/-- C10 (sized construction): `SimpleVector(N, v)` has size `N`, capacity `N`, a buffer of
`N` slots and contents `N` times `v`; `SimpleVector(N)` is `SimpleVector(N, Type())`, so
its contents are `N` times the default value. -/
theorem C10_sized_construction [Inhabited α] (N : Nat) (v : α) :
    (sized N v).GetSize = N ∧ (sized N v).GetCapacity = N ∧
    (sized N v).toList = List.replicate N v ∧
    (sized N v).items_ = List.replicate N v ∧
    (sizedDefault N : SimpleVector α) = sized N default ∧
    (sizedDefault N : SimpleVector α).GetSize = N ∧
    (sizedDefault N : SimpleVector α).GetCapacity = N ∧
    (sizedDefault N : SimpleVector α).toList = List.replicate N default := by
  have hitems : ∀ x : α, (sized N x).items_ = List.replicate N x := by
    intro x
    apply List.ext_getElem?
    intro i
    simp only [sized, ArrayPtr.alloc, fillLoop_getElem?, List.length_replicate,
      List.getElem?_replicate]
    split_ifs
    all_goals first | rfl | omega
  have hlist : ∀ x : α, (sized N x).toList = List.replicate N x := by
    intro x
    have hs : (sized N x).size_ = N := rfl
    rw [toList, hitems x, hs]
    exact List.take_of_length_le (by simp)
  exact ⟨rfl, rfl, hlist v, hitems v, rfl, rfl, rfl, hlist default⟩

/-- C11 (Clear): on every record, whatever its size and capacity fields, `Clear()` leaves
size 0, the capacity it found and the buffer it found, slot by slot; a second `Clear()`
changes nothing more. -/
theorem C11_clear [Inhabited α] [Movable α] (v : SimpleVector α) :
    v.Clear.GetSize = 0 ∧ v.Clear.GetCapacity = v.GetCapacity ∧ v.Clear.items_ = v.items_ ∧
    v.Clear.Clear = v.Clear := by
  have h : ∀ u : SimpleVector α, u.Clear = { u with size_ := 0 } := fun u =>
    Resize_shrink u 0 (Nat.zero_le _) (Nat.zero_le _)
  refine ⟨?_, ?_, ?_, ?_⟩
  · rw [h v]; rfl
  · rw [h v]; rfl
  · rw [h v]
  · rw [h v.Clear, h v]

/-- C14 as stated fails: `{1, 2, 3, 4}` has capacity 4, and `Reserve(5)` leaves capacity 5,
not `max(5, 2 * 4) = 8`. -/
theorem C14_reserve_does_not_double :
    (fromInit [1, 2, 3, 4] : SimpleVector Nat).GetCapacity = 4 ∧
    ((fromInit [1, 2, 3, 4] : SimpleVector Nat).Reserve 5).GetCapacity = 5 ∧
    ((fromInit [1, 2, 3, 4] : SimpleVector Nat).Reserve 5).GetCapacity
      ≠ max 5 (2 * (fromInit [1, 2, 3, 4] : SimpleVector Nat).GetCapacity) := by
  decide

/-- C14 amended (growth on the Reserve path): for a request `R` above the capacity `C`,
`Reserve(R)` sets the capacity to exactly `R`.  The rule `max(R, 2 * C)` is the rule of
the other growth paths: `Resize(R)`, both `PushBack` overloads when `size + 1 > C` (they
return for an argument outside the vector, and whenever they return the capacity is the
rule's), and `insert` / `Insert` on a full vector (`size = C`, required size `size + 1`),
whatever their argument refers to. -/
theorem C14_reserve_sets_requested_capacity [Inhabited α] [Movable α] (dbg : Bool)
    (v : SimpleVector α) (R p : Nat) (x : α) (a : Arg α) (hR : R > v.GetCapacity) :
    (v.Reserve R).GetCapacity = R ∧
    (v.Resize R).GetCapacity = max R (2 * v.GetCapacity) ∧
    (v.GetSize + 1 > v.GetCapacity →
      (∃ w, v.PushBack (.outside x) = .ok w ∧
        w.GetCapacity = max (v.GetSize + 1) (2 * v.GetCapacity)) ∧
      (∃ w, v.PushBackMove (.outside x) = .ok w ∧
        w.GetCapacity = max (v.GetSize + 1) (2 * v.GetCapacity)) ∧
      (∀ w, v.PushBack a = .ok w →
        w.GetCapacity = max (v.GetSize + 1) (2 * v.GetCapacity))) ∧
    (v.GetSize = v.GetCapacity →
      (∀ w q, v.insert dbg p a = .ok (w, q) →
        w.GetCapacity = max (v.GetSize + 1) (2 * v.GetCapacity)) ∧
      (∀ w q, v.Insert dbg p a = .ok (w, q) →
        w.GetCapacity = max (v.GetSize + 1) (2 * v.GetCapacity))) := by
  simp only [GetSize, GetCapacity] at *
  have hfull : v.size_ = v.capacity_ →
      (if v.capacity_ = 0 then 1 else if v.size_ < v.capacity_ then v.capacity_
        else max (v.size_ + 1) (v.capacity_ * 2)) = max (v.size_ + 1) (2 * v.capacity_) := by
    intro h
    by_cases h0 : v.capacity_ = 0
    · rw [if_pos h0, h, h0]
      rfl
    · rw [if_neg h0, if_neg (by omega), Nat.mul_comm]
  refine ⟨(Reserve_grow v R hR).1, ?_, ?_, ?_⟩
  · rw [Resize_capacity_grow v R hR, Nat.mul_comm]
  · intro hg
    obtain ⟨w, hw⟩ := PushBack_outside v x
    obtain ⟨_, hcapw, _, _⟩ := PushBack_outside_ok v w x hw
    rw [if_pos hg, Nat.mul_comm] at hcapw
    refine ⟨⟨w, hw, hcapw⟩, ⟨w, ?_, hcapw⟩, ?_⟩
    · rw [PushBackMove_eq_PushBack]
      exact hw
    · intro u hu
      obtain ⟨_, _, _, hcapu, _, _⟩ := PushBack_ok v u a hu
      rw [hcapu, if_pos hg, Nat.mul_comm]
  · intro hfl
    refine ⟨?_, ?_⟩
    · intro w q hw
      rw [insert_capacity dbg v w p q a hw, hfull hfl]
    · intro w q hw
      rw [Insert_capacity dbg v w p q a hw, hfull hfl]

/-- C14 amended at `{1, 2, 3, 4}` with the request 5: `Reserve(5)` gives capacity 5,
`Resize(5)` gives capacity 8. -/
theorem C14_reserve_sets_requested_capacity_witness :
    5 > (fromInit [1, 2, 3, 4] : SimpleVector Nat).GetCapacity ∧
    ((fromInit [1, 2, 3, 4] : SimpleVector Nat).Reserve 5).GetCapacity = 5 ∧
    ((fromInit [1, 2, 3, 4] : SimpleVector Nat).Resize 5).GetCapacity = 8 :=
  ⟨by decide,
   (C14_reserve_sets_requested_capacity true (fromInit [1, 2, 3, 4] : SimpleVector Nat)
      5 0 0 (.outside 0) (by decide)).1,
   (C14_reserve_sets_requested_capacity true (fromInit [1, 2, 3, 4] : SimpleVector Nat)
      5 0 0 (.outside 0) (by decide)).2.1⟩

/-- C15 (Reserve changes only the capacity): on a vector whose buffer has `capacity` slots
and whose size is within the capacity, `Reserve(N)` keeps the size and the logical
contents; for `N ≤ capacity` it returns the vector as it was, for `N > capacity` the new
capacity is at least `N`.  The vector built from the reservation request `Reserve(N)` has
size 0 and capacity `N`. -/
theorem C15_reserve_frame [Inhabited α] (v : SimpleVector α) (N : Nat)
    (hbuf : v.items_.length = v.GetCapacity) (hsz : v.GetSize ≤ v.GetCapacity) :
    (v.Reserve N).GetSize = v.GetSize ∧
    (v.Reserve N).toList = v.toList ∧
    (N ≤ v.GetCapacity → v.Reserve N = v) ∧
    (N > v.GetCapacity → N ≤ (v.Reserve N).GetCapacity) ∧
    (reserved N : SimpleVector α).GetSize = 0 ∧
    (reserved N : SimpleVector α).GetCapacity = N := by
  simp only [GetSize, GetCapacity] at *
  refine ⟨Reserve_size v N, Reserve_toList v N hbuf hsz, Reserve_noop v N, ?_, ?_, ?_⟩
  · intro h
    rw [(Reserve_grow v N h).1]
  · exact Reserve_size _ N
  · by_cases h0 : N = 0
    · subst h0
      rfl
    · exact (Reserve_grow (empty : SimpleVector α) N (Nat.pos_of_ne_zero h0)).1

/-- C15 at `{1, 2, 3}` with the request 5. -/
theorem C15_reserve_frame_witness :
    ((fromInit [1, 2, 3] : SimpleVector Nat).items_.length
        = (fromInit [1, 2, 3] : SimpleVector Nat).GetCapacity ∧
      (fromInit [1, 2, 3] : SimpleVector Nat).GetSize
        ≤ (fromInit [1, 2, 3] : SimpleVector Nat).GetCapacity) ∧
    ((fromInit [1, 2, 3] : SimpleVector Nat).Reserve 5).GetSize
      = (fromInit [1, 2, 3] : SimpleVector Nat).GetSize ∧
    ((fromInit [1, 2, 3] : SimpleVector Nat).Reserve 5).toList
      = (fromInit [1, 2, 3] : SimpleVector Nat).toList :=
  ⟨by decide,
   (C15_reserve_frame (fromInit [1, 2, 3] : SimpleVector Nat) 5 (by decide) (by decide)).1,
   (C15_reserve_frame (fromInit [1, 2, 3] : SimpleVector Nat) 5 (by decide) (by decide)).2.1⟩

/-- C16 (PopBack): on a vector whose buffer has `capacity` slots and whose size is within
the capacity, `PopBack()` returns an empty vector as it was; on a non-empty vector it is
`Resize(size - 1)`: the size drops by one, the contents lose their last element and the
capacity stays. -/
theorem C16_pop_back [Inhabited α] [Movable α] (v : SimpleVector α)
    (hbuf : v.items_.length = v.GetCapacity) (hsz : v.GetSize ≤ v.GetCapacity) :
    (v.GetSize = 0 → v.PopBack = v) ∧
    (0 < v.GetSize →
      v.PopBack = v.Resize (v.GetSize - 1) ∧
      v.PopBack.GetSize = v.GetSize - 1 ∧
      v.PopBack.toList = v.toList.dropLast ∧
      v.PopBack.GetCapacity = v.GetCapacity) := by
  simp only [GetSize, GetCapacity] at *
  constructor
  · intro h0
    simp [PopBack, SimpleVector.IsEmpty, h0]
  · intro hpos
    have hne : v.size_ ≠ 0 := by omega
    have hpop : v.PopBack = v.Resize (v.size_ - 1) := by
      simp [PopBack, SimpleVector.IsEmpty, hne]
    have hres : v.Resize (v.size_ - 1) = { v with size_ := v.size_ - 1 } :=
      Resize_shrink v (v.size_ - 1) (by omega) (by omega)
    refine ⟨hpop, ?_, ?_, ?_⟩
    · rw [hpop, hres]
    · rw [hpop, hres]
      simp only [toList, List.dropLast_eq_take, List.length_take, List.take_take]
      congr 1
      omega
    · rw [hpop, hres]

/-- C16 at `{1, 2, 3}`. -/
theorem C16_pop_back_witness :
    ((fromInit [1, 2, 3] : SimpleVector Nat).items_.length
        = (fromInit [1, 2, 3] : SimpleVector Nat).GetCapacity ∧
      (fromInit [1, 2, 3] : SimpleVector Nat).GetSize
        ≤ (fromInit [1, 2, 3] : SimpleVector Nat).GetCapacity ∧
      0 < (fromInit [1, 2, 3] : SimpleVector Nat).GetSize) ∧
    (fromInit [1, 2, 3] : SimpleVector Nat).PopBack.toList
      = (fromInit [1, 2, 3] : SimpleVector Nat).toList.dropLast :=
  ⟨by decide,
   ((C16_pop_back (fromInit [1, 2, 3] : SimpleVector Nat) (by decide) (by decide)).2
      (by decide)).2.2.1⟩

/-- C17 as stated fails.  With assertions on, `Erase` at a position from the end on stops
at `assert(pos < end())`: on `{1, 2, 3}` both offset 3 and offset 4 end in the failed
assertion, not in `std::out_of_range`.  With assertions off, offset 3 (the end position)
passes the test `count > size_` and reaches `std::move` on the range `[4, 3)`, which is
undefined: nothing is thrown there either. -/
theorem C17_erase_outside_range_not_thrown :
    (fromInit [1, 2, 3] : SimpleVector Nat).GetSize = 3 ∧
    (fromInit [1, 2, 3] : SimpleVector Nat).Erase true 4 = .error .assertFailed ∧
    (fromInit [1, 2, 3] : SimpleVector Nat).Erase true 3 = .error .assertFailed ∧
    (fromInit [1, 2, 3] : SimpleVector Nat).Erase false 3 = .error .undefined ∧
    (fromInit [1, 2, 3] : SimpleVector Nat).Erase true 4 ≠ .error .outOfRange ∧
    (fromInit [1, 2, 3] : SimpleVector Nat).Erase false 3 ≠ .error .outOfRange := by
  have e1 : (fromInit [1, 2, 3] : SimpleVector Nat).Erase true 4 = .error .assertFailed := rfl
  have e2 : (fromInit [1, 2, 3] : SimpleVector Nat).Erase false 3 = .error .undefined := rfl
  refine ⟨rfl, e1, rfl, e2, ?_, ?_⟩
  · intro h
    rw [e1] at h
    cases h
  · intro h
    rw [e2] at h
    cases h

/-- C17 amended (Erase signals positions outside the range): without assertions (`NDEBUG`),
`Erase` at every position above the size throws `std::out_of_range`; with assertions,
`Erase` at every position from the size on stops at its assertion.  Either failure comes
before the move loop and before `--size_`, so no member has been assigned: the result is
the failure alone and the vector is as it was.  (The end position without assertions is
left out.) -/
theorem C17_erase_outside_range [Movable α] (v : SimpleVector α) (p : Nat) :
    (v.GetSize < p → v.Erase false p = .error .outOfRange) ∧
    (v.GetSize ≤ p → v.Erase true p = .error .assertFailed) :=
  ⟨(Erase_beyond v p).2, (Erase_beyond v p).1⟩

/-- C17 amended at `{1, 2, 3}`: offset 4 without assertions, offset 3 with assertions. -/
theorem C17_erase_outside_range_witness :
    ((fromInit [1, 2, 3] : SimpleVector Nat).GetSize < 4 ∧
      (fromInit [1, 2, 3] : SimpleVector Nat).GetSize ≤ 3) ∧
    (fromInit [1, 2, 3] : SimpleVector Nat).Erase false 4 = .error .outOfRange ∧
    (fromInit [1, 2, 3] : SimpleVector Nat).Erase true 3 = .error .assertFailed :=
  ⟨by decide,
   (C17_erase_outside_range (fromInit [1, 2, 3] : SimpleVector Nat) 4).1 (by decide),
   (C17_erase_outside_range (fromInit [1, 2, 3] : SimpleVector Nat) 3).2 (by decide)⟩

/-- C18 (moving Insert at full capacity): the suffix is moved out of slots that the first
`std::move` has already left moved-from.  On the full vector `{"a", "b", "c"}` of strings,
`Insert(begin() + 1, "z")` leaves the contents `["a", "z", "", ""]` where the claim has
`["a", "z", "b", "c"]`; the copying `insert` on the same input gives the latter. -/
theorem C18_moving_insert_loses_suffix :
    (fromInit ["a", "b", "c"] : SimpleVector String).GetSize
      = (fromInit ["a", "b", "c"] : SimpleVector String).GetCapacity ∧
    (fromInit ["a", "b", "c"] : SimpleVector String).Insert true 1 (.outside "z")
      = .ok ({ items_ := ["a", "z", "", "", "", ""], size_ := 4, capacity_ := 6 }, 1) ∧
    ({ items_ := ["a", "z", "", "", "", ""], size_ := 4, capacity_ := 6 }
      : SimpleVector String).toList = ["a", "z", "", ""] ∧
    (["a", "z", "", ""] : List String)
      ≠ (["a", "b", "c"].take 1 ++ ["z"] ++ ["a", "b", "c"].drop 1) ∧
    (fromInit ["a", "b", "c"] : SimpleVector String).insert true 1 (.outside "z")
      = .ok ({ items_ := ["a", "z", "b", "c", "", ""], size_ := 4, capacity_ := 6 }, 1) := by
  refine ⟨rfl, rfl, rfl, by decide, rfl⟩

/-- C20 (a copy behaves like its original): the copy of `{1, 2, 3}` has size 3 and
capacity 0, so its `PopBack()`, which is `Resize(2)`, takes the branch that allocates a new
buffer and carries over `capacity_ = 0` elements: the size is 2 as claimed, but the
contents are `[0, 0]` where the claim has `[1, 2]`. -/
theorem C20_copy_then_pop_back_loses_contents :
    (copy (fromInit [1, 2, 3] : SimpleVector Nat)).toList = [1, 2, 3] ∧
    (copy (fromInit [1, 2, 3] : SimpleVector Nat)).PopBack.GetSize = 2 ∧
    (copy (fromInit [1, 2, 3] : SimpleVector Nat)).PopBack.toList = [0, 0] ∧
    (copy (fromInit [1, 2, 3] : SimpleVector Nat)).PopBack.toList
      ≠ (fromInit [1, 2, 3] : SimpleVector Nat).toList.dropLast ∧
    (fromInit [1, 2, 3] : SimpleVector Nat).PopBack.toList = [1, 2] := by
  decide

/-- C12 (equality): for two objects whose buffers hold their logical ranges, `a == b` is
true exactly when the sizes are equal and the slots below the size agree, which is to say
exactly when the logical contents are equal; so any two objects with the same logical
contents as `a` and `b`, whatever their capacities and their slots from the size on,
compare the same way; and `a != b` is the negation of `a == b`. -/
theorem C12_equality [DecidableEq α] (st : Store α) (l r : Nat)
    (hl : (st l).GetSize ≤ (st l).items_.length)
    (hr : (st r).GetSize ≤ (st r).items_.length) :
    (opEq st l r = true ↔
      (st l).GetSize = (st r).GetSize ∧
        ∀ i, i < (st l).GetSize → (st l).items_[i]? = (st r).items_[i]?) ∧
    (opEq st l r = true ↔ (st l).toList = (st r).toList) ∧
    (∀ st2 : Store α, (st2 l).GetSize ≤ (st2 l).items_.length →
      (st2 r).GetSize ≤ (st2 r).items_.length →
      (st2 l).toList = (st l).toList → (st2 r).toList = (st r).toList →
      opEq st2 l r = opEq st l r) ∧
    opNe st l r = !(opEq st l r) := by
  simp only [GetSize] at *
  refine ⟨opEq_iff st l r hl hr, opEq_iff_toList st l r hl hr, ?_, rfl⟩
  intro st2 hl2 hr2 e1 e2
  rw [Bool.eq_iff_iff, opEq_iff_toList st l r hl hr, opEq_iff_toList st2 l r hl2 hr2, e1, e2]

/-- C12 at the objects 0 (`{1, 2, 3}` reserved to capacity 5) and 1 (`{1, 2, 3}`): they
compare equal. -/
theorem C12_equality_witness :
    (((fun k => if k = 1 then (fromInit [1, 2, 3] : SimpleVector Nat)
        else (fromInit [1, 2, 3] : SimpleVector Nat).Reserve 5) 0).GetSize
      ≤ ((fun k => if k = 1 then (fromInit [1, 2, 3] : SimpleVector Nat)
        else (fromInit [1, 2, 3] : SimpleVector Nat).Reserve 5) 0).items_.length ∧
     ((fun k => if k = 1 then (fromInit [1, 2, 3] : SimpleVector Nat)
        else (fromInit [1, 2, 3] : SimpleVector Nat).Reserve 5) 1).GetSize
      ≤ ((fun k => if k = 1 then (fromInit [1, 2, 3] : SimpleVector Nat)
        else (fromInit [1, 2, 3] : SimpleVector Nat).Reserve 5) 1).items_.length) ∧
    opEq (fun k => if k = 1 then (fromInit [1, 2, 3] : SimpleVector Nat)
        else (fromInit [1, 2, 3] : SimpleVector Nat).Reserve 5) 0 1 = true :=
  ⟨by decide,
   (C12_equality (fun k => if k = 1 then (fromInit [1, 2, 3] : SimpleVector Nat)
        else (fromInit [1, 2, 3] : SimpleVector Nat).Reserve 5) 0 1
      (by decide) (by decide)).2.1.mpr (by decide)⟩

/-- C13 (ordering): for two objects over a linearly ordered element type whose buffers hold
their logical ranges, `a < b` is true exactly when the contents of `a` precede those of `b`
in the lexicographic order, that is when at some index up to which they agree either `a`
ends and `b` goes on or the element of `a` is smaller; a proper prefix sorts first;
`a <= b` is `a < b` or `a == b`, `a > b` is `b < a`, and `a >= b` is `a > b` or `a == b`. -/
theorem C13_ordering [LinearOrder α] (st : Store α) (l r : Nat)
    (hl : (st l).GetSize ≤ (st l).items_.length)
    (hr : (st r).GetSize ≤ (st r).items_.length) :
    (opLt st l r = true ↔
      List.Lex (fun (u v : α) => u < v) (st l).toList (st r).toList) ∧
    (opLt st l r = true ↔
      ∃ k, (st l).toList.take k = (st r).toList.take k ∧
        (((st l).toList.length = k ∧ k < (st r).toList.length) ∨
          ∃ x y, (st l).toList[k]? = some x ∧ (st r).toList[k]? = some y ∧ x < y)) ∧
    (∀ x t, (st r).toList = (st l).toList ++ x :: t → opLt st l r = true) ∧
    (opLe st l r = true ↔ opLt st l r = true ∨ opEq st l r = true) ∧
    (opGt st l r = true ↔ opLt st r l = true) ∧
    (opGe st l r = true ↔ opGt st l r = true ∨ opEq st l r = true) := by
  simp only [GetSize] at *
  have hlt := opLt_iff st l r hl hr
  have hgt := opLt_iff st r l hr hl
  have heq := opEq_iff_toList st l r hl hr
  refine ⟨hlt, ?_, ?_, ?_, Iff.rfl, ?_⟩
  · rw [hlt, lex_iff_first_difference]
  · intro x t h
    rw [hlt, h]
    have := List.Lex.append_left (fun (u v : α) => u < v)
      (List.Lex.nil : List.Lex (fun (u v : α) => u < v) [] (x :: t)) (st l).toList
    simpa using this
  · unfold opLe
    rw [Bool.not_eq_true', ← Bool.not_eq_true, hgt, hlt, heq]
    exact not_lex_iff _ _
  · unfold opGe opGt
    rw [Bool.not_eq_true', ← Bool.not_eq_true, hgt, hlt, heq, not_lex_iff]
    constructor
    · rintro (h | h)
      · exact Or.inl h
      · exact Or.inr h.symm
    · rintro (h | h)
      · exact Or.inl h
      · exact Or.inr h.symm

/-- C13 at the objects 0 (`{1, 2}`) and 1 (`{1, 2, 3}`): the proper prefix is smaller. -/
theorem C13_ordering_witness :
    (((fun k => if k = 1 then (fromInit [1, 2, 3] : SimpleVector Nat)
        else (fromInit [1, 2] : SimpleVector Nat)) 0).GetSize
      ≤ ((fun k => if k = 1 then (fromInit [1, 2, 3] : SimpleVector Nat)
        else (fromInit [1, 2] : SimpleVector Nat)) 0).items_.length ∧
     ((fun k => if k = 1 then (fromInit [1, 2, 3] : SimpleVector Nat)
        else (fromInit [1, 2] : SimpleVector Nat)) 1).GetSize
      ≤ ((fun k => if k = 1 then (fromInit [1, 2, 3] : SimpleVector Nat)
        else (fromInit [1, 2] : SimpleVector Nat)) 1).items_.length) ∧
    opLt (fun k => if k = 1 then (fromInit [1, 2, 3] : SimpleVector Nat)
        else (fromInit [1, 2] : SimpleVector Nat)) 0 1 = true :=
  ⟨by decide,
   (C13_ordering (fun k => if k = 1 then (fromInit [1, 2, 3] : SimpleVector Nat)
        else (fromInit [1, 2] : SimpleVector Nat)) 0 1
      (by decide) (by decide)).2.2.1 3 [] (by decide)⟩

end Claims
